import Mathlib

/-!
Shallow embedding of the Aptos storage gas metering and change-set
validation core (`aptos-move/aptos-gas/src/transaction/storage.rs`).

Gas quantities (`InternalGas`, `InternalGasPerArg`, `InternalGasPerByte`,
`NumArgs`, `NumBytes`) are modelled as `Nat`; the `checked_sub … unwrap_or
zero` saturating subtraction of the source is `Nat` truncated subtraction.
Operations of the source that can panic (the `expect` on state-key
encoding, the `assert!` in `StoragePricingV2::new`) are modelled as
`Option`-valued, with `none` standing for the fatal fault.
-/

namespace AptosStorageGas

/-- Byte strings; only their lengths matter to the metering core. -/
abbrev Bytes := List Nat

/-- The maximum representable `u64` value (`u64::MAX`). -/
def u64_MAX : Nat := 2 ^ 64 - 1

/-- Modelled from the spec: the state key is an external abstraction of
`aptos_types::state_store::state_key::StateKey`, exposing an abstract size
(`size()`, stable and version-independent) and a fallible canonical
encoding (`encode() -> Result<Vec<u8>>`). -/
structure StateKey where
  size : Nat
  encode : Option Bytes
  deriving DecidableEq, Repr

/-- Modelled from the spec: opaque auxiliary metadata carried by the
`WithMetadata` write-operation variants; never consulted by this core. -/
abbrev StateValueMetadata := Unit

/-- Modelled from the spec: `aptos_types::write_set::WriteOp`, a tagged
variant over Creation / Modification / Deletion, each optionally carrying
metadata; Creation and Modification carry a byte payload. -/
inductive WriteOp where
  | Creation (data : Bytes)
  | CreationWithMetadata (data : Bytes) (metadata : StateValueMetadata)
  | Modification (data : Bytes)
  | ModificationWithMetadata (data : Bytes) (metadata : StateValueMetadata)
  | Deletion
  | DeletionWithMetadata (metadata : StateValueMetadata)
  deriving DecidableEq, Repr

/-- Modelled from the spec: `WriteOp::bytes`, the optional payload of a
write operation — present for Creation and Modification, absent for
Deletion. -/
def WriteOp.bytes : WriteOp → Option Bytes
  | .Creation data => some data
  | .CreationWithMetadata data _ => some data
  | .Modification data => some data
  | .ModificationWithMetadata data _ => some data
  | .Deletion => none
  | .DeletionWithMetadata _ => none

/-- Modelled from the spec: an emitted event, exposing its payload
(`event_data`). -/
structure ContractEvent where
  event_data : Bytes
  deriving DecidableEq, Repr

/-- Modelled from the spec: a change set — an ordered sequence of
(state key, write operation) entries plus an ordered sequence of events. -/
structure ChangeSet where
  write_set : List (StateKey × WriteOp)
  events : List ContractEvent
  deriving DecidableEq, Repr

/-- The `txn` fields of `AptosGasParameters` consumed by this core (the
raw numeric parameter bag). -/
structure TransactionGasParameters where
  write_data_per_op : Nat
  write_data_per_new_item : Nat
  write_data_per_byte_in_key : Nat
  write_data_per_byte_in_val : Nat
  load_data_base : Nat
  load_data_per_byte : Nat
  load_data_failure : Nat
  free_write_bytes_quota : Nat
  max_bytes_per_write_op : Nat
  max_bytes_all_write_ops_per_transaction : Nat
  max_bytes_per_event : Nat
  max_bytes_all_events_per_transaction : Nat
  deriving DecidableEq, Repr

/-- The raw parameter bag (`AptosGasParameters`), restricted to the fields
this core reads. -/
structure AptosGasParameters where
  txn : TransactionGasParameters
  deriving DecidableEq, Repr

/-- The on-chain governed schedule
(`aptos_types::on_chain_config::StorageGasSchedule`), restricted to the
fields this core reads. -/
structure StorageGasSchedule where
  per_item_read : Nat
  per_item_create : Nat
  per_item_write : Nat
  per_byte_read : Nat
  per_byte_create : Nat
  per_byte_write : Nat
  deriving DecidableEq, Repr

/-- `StoragePricingV1` — the Legacy flat-rate pricing variant. -/
structure StoragePricingV1 where
  write_data_per_op : Nat
  write_data_per_new_item : Nat
  write_data_per_byte_in_key : Nat
  write_data_per_byte_in_val : Nat
  load_data_base : Nat
  load_data_per_byte : Nat
  load_data_failure : Nat
  deriving DecidableEq, Repr

/-- `StoragePricingV1::new`. -/
def StoragePricingV1.new (gas_params : AptosGasParameters) : StoragePricingV1 :=
  { write_data_per_op := gas_params.txn.write_data_per_op
    write_data_per_new_item := gas_params.txn.write_data_per_new_item
    write_data_per_byte_in_key := gas_params.txn.write_data_per_byte_in_key
    write_data_per_byte_in_val := gas_params.txn.write_data_per_byte_in_val
    load_data_base := gas_params.txn.load_data_base
    load_data_per_byte := gas_params.txn.load_data_per_byte
    load_data_failure := gas_params.txn.load_data_failure }

/-- `StoragePricingV1::calculate_read_gas`. -/
def StoragePricingV1.calculate_read_gas (p : StoragePricingV1)
    (loaded : Option Nat) : Nat :=
  p.load_data_base +
    match loaded with
    | some num_bytes => p.load_data_per_byte * num_bytes
    | none => p.load_data_failure

/-- `StoragePricingV1::io_gas_per_write`; `none` models the
`expect`-panic on an unencodable key, reached only when
`write_data_per_byte_in_key > 0`. -/
def StoragePricingV1.io_gas_per_write (p : StoragePricingV1)
    (key : StateKey) (op : WriteOp) : Option Nat :=
  let cost := p.write_data_per_op * 1
  let cost! : Option Nat :=
    if 0 < p.write_data_per_byte_in_key then
      key.encode.map (fun enc => cost + p.write_data_per_byte_in_key * enc.length)
    else
      some cost
  cost!.map (fun cost =>
    match op with
    | .Creation data | .CreationWithMetadata data _ =>
        cost + (p.write_data_per_new_item * 1 +
          p.write_data_per_byte_in_val * data.length)
    | .Modification data | .ModificationWithMetadata data _ =>
        cost + p.write_data_per_byte_in_val * data.length
    | .Deletion | .DeletionWithMetadata _ => cost)

/-- `StoragePricingV2` — the Quota-tiered pricing variant. -/
structure StoragePricingV2 where
  feature_version : Nat
  free_write_bytes_quota : Nat
  per_item_read : Nat
  per_item_create : Nat
  per_item_write : Nat
  per_byte_read : Nat
  per_byte_create : Nat
  per_byte_write : Nat
  deriving DecidableEq, Repr

/-- `StoragePricingV2::new`; `none` models the `assert!(feature_version > 0)`
panic. -/
def StoragePricingV2.new (feature_version : Nat)
    (storage_gas_schedule : StorageGasSchedule)
    (gas_params : AptosGasParameters) : Option StoragePricingV2 :=
  if feature_version = 0 then none
  else
    let free_write_bytes_quota :=
      if 5 ≤ feature_version then gas_params.txn.free_write_bytes_quota
      else if 3 ≤ feature_version then 1024
      else 0
    some
      { feature_version
        free_write_bytes_quota
        per_item_read := storage_gas_schedule.per_item_read
        per_item_create := storage_gas_schedule.per_item_create
        per_item_write := storage_gas_schedule.per_item_write
        per_byte_read := storage_gas_schedule.per_byte_read
        per_byte_create := storage_gas_schedule.per_byte_create
        per_byte_write := storage_gas_schedule.per_byte_write }

/-- `StoragePricingV2::write_op_size`; `none` models the `expect`-panic on
an unencodable key, reached only for feature versions below 3. -/
def StoragePricingV2.write_op_size (s : StoragePricingV2)
    (key : StateKey) (value : Bytes) : Option Nat :=
  let value_size := value.length
  if 3 ≤ s.feature_version then
    let key_size := key.size
    some (key_size + value_size - s.free_write_bytes_quota)
  else
    key.encode.map (fun enc => enc.length + value_size)

/-- `StoragePricingV2::calculate_read_gas`. -/
def StoragePricingV2.calculate_read_gas (s : StoragePricingV2)
    (loaded : Option Nat) : Nat :=
  s.per_item_read * 1 +
    match loaded with
    | some num_bytes => s.per_byte_read * num_bytes
    | none => 0

/-- `StoragePricingV2::io_gas_per_write`. -/
def StoragePricingV2.io_gas_per_write (s : StoragePricingV2)
    (key : StateKey) (op : WriteOp) : Option Nat :=
  match op with
  | .Creation data | .CreationWithMetadata data _ =>
      (s.write_op_size key data).map
        (fun sz => s.per_item_create * 1 + sz * s.per_byte_create)
  | .Modification data | .ModificationWithMetadata data _ =>
      (s.write_op_size key data).map
        (fun sz => s.per_item_write * 1 + sz * s.per_byte_write)
  | .Deletion | .DeletionWithMetadata _ => some 0

/-- `StoragePricing` — the closed two-variant pricing dispatch. -/
inductive StoragePricing where
  | V1 (v1 : StoragePricingV1)
  | V2 (v2 : StoragePricingV2)
  deriving DecidableEq, Repr

/-- `StoragePricing::calculate_read_gas`. -/
def StoragePricing.calculate_read_gas (p : StoragePricing)
    (loaded : Option Nat) : Nat :=
  match p with
  | .V1 v1 => v1.calculate_read_gas loaded
  | .V2 v2 => v2.calculate_read_gas loaded

/-- `StoragePricing::io_gas_per_write`. -/
def StoragePricing.io_gas_per_write (p : StoragePricing)
    (key : StateKey) (op : WriteOp) : Option Nat :=
  match p with
  | .V1 v1 => v1.io_gas_per_write key op
  | .V2 v2 => v2.io_gas_per_write key op

/-- `StatusCode` — the single status this core emits. -/
inductive StatusCode where
  | STORAGE_WRITE_LIMIT_REACHED
  deriving DecidableEq, Repr

/-- `VMStatus` as this core produces it: `VMStatus::Error(code, message)`. -/
inductive VMStatus where
  | Error (code : StatusCode) (message : Option String)
  deriving DecidableEq, Repr

/-- `ChangeSetConfigs` — the Change-Set Limiter. -/
structure ChangeSetConfigs where
  gas_feature_version : Nat
  max_bytes_per_write_op : Nat
  max_bytes_all_write_ops_per_transaction : Nat
  max_bytes_per_event : Nat
  max_bytes_all_events_per_transaction : Nat
  deriving DecidableEq, Repr

/-- `ChangeSetConfigs::new_impl`. -/
def ChangeSetConfigs.new_impl (gas_feature_version : Nat)
    (max_bytes_per_write_op : Nat)
    (max_bytes_all_write_ops_per_transaction : Nat)
    (max_bytes_per_event : Nat)
    (max_bytes_all_events_per_transaction : Nat) : ChangeSetConfigs :=
  { gas_feature_version
    max_bytes_per_write_op
    max_bytes_all_write_ops_per_transaction
    max_bytes_per_event
    max_bytes_all_events_per_transaction }

/-- `ChangeSetConfigs::unlimited_at_gas_feature_version`. -/
def ChangeSetConfigs.unlimited_at_gas_feature_version
    (gas_feature_version : Nat) : ChangeSetConfigs :=
  ChangeSetConfigs.new_impl gas_feature_version u64_MAX u64_MAX u64_MAX u64_MAX

/-- `ChangeSetConfigs::for_feature_version_3`; `MB = 1 << 20`. -/
def ChangeSetConfigs.for_feature_version_3 : ChangeSetConfigs :=
  ChangeSetConfigs.new_impl 3 (2 ^ 20) u64_MAX (2 ^ 20) (10 * 2 ^ 20)

/-- `ChangeSetConfigs::from_gas_params`. -/
def ChangeSetConfigs.from_gas_params (gas_feature_version : Nat)
    (gas_params : AptosGasParameters) : ChangeSetConfigs :=
  ChangeSetConfigs.new_impl gas_feature_version
    gas_params.txn.max_bytes_per_write_op
    gas_params.txn.max_bytes_all_write_ops_per_transaction
    gas_params.txn.max_bytes_per_event
    gas_params.txn.max_bytes_all_events_per_transaction

/-- `ChangeSetConfigs::new`. -/
def ChangeSetConfigs.new (feature_version : Nat)
    (gas_params : AptosGasParameters) : ChangeSetConfigs :=
  if 5 ≤ feature_version then
    ChangeSetConfigs.from_gas_params feature_version gas_params
  else if 3 ≤ feature_version then
    ChangeSetConfigs.for_feature_version_3
  else
    ChangeSetConfigs.unlimited_at_gas_feature_version feature_version

/-- `ChangeSetConfigs::legacy_resource_creation_as_modification`. -/
def ChangeSetConfigs.legacy_resource_creation_as_modification
    (cfg : ChangeSetConfigs) : Bool :=
  cfg.gas_feature_version < 3

/-- The limit-reached failure value produced by `check_change_set`
(`VMStatus::Error(StatusCode::STORAGE_WRITE_LIMIT_REACHED, None)`). -/
def limitReached : VMStatus :=
  VMStatus.Error StatusCode.STORAGE_WRITE_LIMIT_REACHED none

/-- The write loop of `check_change_set`: iterate over the write set in
order, carrying the running `write_set_size`; on success return the final
running size.  For an entry with a payload, check its size against the
per-write-op cap, add it to the running total, then check the running
total; for an entry without a payload the running total is unchanged and
only the running-total check runs (exactly as in the source, where that
check sits outside the `if let`). -/
def checkWritesLoop (cfg : ChangeSetConfigs) :
    List (StateKey × WriteOp) → Nat → Except VMStatus Nat
  | [], write_set_size => .ok write_set_size
  | (key, op) :: rest, write_set_size =>
    match op.bytes with
    | some bytes =>
      let write_op_size := bytes.length + key.size
      if cfg.max_bytes_per_write_op < write_op_size then
        .error limitReached
      else
        let write_set_size := write_set_size + write_op_size
        if cfg.max_bytes_all_write_ops_per_transaction < write_set_size then
          .error limitReached
        else
          checkWritesLoop cfg rest write_set_size
    | none =>
      if cfg.max_bytes_all_write_ops_per_transaction < write_set_size then
        .error limitReached
      else
        checkWritesLoop cfg rest write_set_size

/-- The event loop of `check_change_set`: iterate over the events in
order, carrying the running `total_event_size`. -/
def checkEventsLoop (cfg : ChangeSetConfigs) :
    List ContractEvent → Nat → Except VMStatus Nat
  | [], total_event_size => .ok total_event_size
  | event :: rest, total_event_size =>
    let size := event.event_data.length
    if cfg.max_bytes_per_event < size then
      .error limitReached
    else
      let total_event_size := total_event_size + size
      if cfg.max_bytes_all_events_per_transaction < total_event_size then
        .error limitReached
      else
        checkEventsLoop cfg rest total_event_size

/-- `ChangeSetConfigs::check_change_set` (`impl CheckChangeSet`): the
write loop runs first and short-circuits; the event loop runs only if
every write entry passed. -/
def ChangeSetConfigs.check_change_set (cfg : ChangeSetConfigs)
    (change_set : ChangeSet) : Except VMStatus Unit :=
  match checkWritesLoop cfg change_set.write_set 0 with
  | .error e => .error e
  | .ok _ =>
    match checkEventsLoop cfg change_set.events 0 with
    | .error e => .error e
    | .ok _ => .ok ()

/-- `StorageGasParameters` — the aggregate (pricing, limiter) pair. -/
structure StorageGasParameters where
  pricing : StoragePricing
  change_set_configs : ChangeSetConfigs
  deriving DecidableEq, Repr

/-- `StorageGasParameters::new` — the Parameter Resolver.  `none` models
the `None` return (metering disabled); the inner `match` on
`StoragePricingV2.new` propagates that constructor's (here unreachable)
`assert!` fault. -/
def StorageGasParameters.new (feature_version : Nat)
    (gas_params : Option AptosGasParameters)
    (storage_gas_schedule : Option StorageGasSchedule) :
    Option StorageGasParameters :=
  if feature_version = 0 ∨ gas_params = none then none
  else
    match gas_params with
    | none => none
    | some gas_params =>
      let pricing : Option StoragePricing :=
        match storage_gas_schedule with
        | some schedule =>
          (StoragePricingV2.new feature_version schedule gas_params).map
            StoragePricing.V2
        | none => some (StoragePricing.V1 (StoragePricingV1.new gas_params))
      match pricing with
      | none => none
      | some pricing =>
        some
          { pricing
            change_set_configs := ChangeSetConfigs.new feature_version gas_params }

/-! Concrete values used by witnesses. -/

/-- A raw parameter bag with every field zero. -/
def gpZero : AptosGasParameters := ⟨⟨0, 0, 0, 0, 0, 0, 0, 0, 0, 0, 0, 0⟩⟩

/-- An on-chain schedule matching the spec's worked Quota-tiered example:
`per_item_create = 50`, `per_byte_create = 3`. -/
def schedEx : StorageGasSchedule := ⟨0, 50, 0, 0, 3, 0⟩

/-- A Quota-tiered pricing value at feature version 5 with
`free_write_bytes_quota = 1024`, matching the spec's worked example. -/
def sV2ex : StoragePricingV2 := ⟨5, 1024, 0, 50, 0, 0, 3, 0⟩

/-- A Legacy pricing value whose per-byte-in-key rate is zero. -/
def pV1zero : StoragePricingV1 := ⟨100, 50, 0, 2, 0, 0, 0⟩

/-- C1: for the Quota-tiered variant, a Creation costs
`per_item_create + chargeable_size * per_byte_create`, a Modification
costs `per_item_write + chargeable_size * per_byte_write`, and a Deletion
costs exactly zero, where for feature version ≥ 3 the chargeable size is
`max(0, key_abstract_size + payload_length − free_write_bytes_quota)`
(saturating, never negative), and for feature version < 3 it is
`encoded_key_length + payload_length` with no quota subtraction. -/
theorem quota_tiered_write_cost (s : StoragePricingV2) (key : StateKey)
    (data : Bytes) :
    (3 ≤ s.feature_version →
      s.io_gas_per_write key (.Creation data) =
        some (s.per_item_create +
          Int.toNat ((key.size : Int) + data.length - s.free_write_bytes_quota) *
            s.per_byte_create) ∧
      s.io_gas_per_write key (.Modification data) =
        some (s.per_item_write +
          Int.toNat ((key.size : Int) + data.length - s.free_write_bytes_quota) *
            s.per_byte_write)) ∧
    (s.feature_version < 3 → ∀ enc, key.encode = some enc →
      s.io_gas_per_write key (.Creation data) =
        some (s.per_item_create + (enc.length + data.length) * s.per_byte_create) ∧
      s.io_gas_per_write key (.Modification data) =
        some (s.per_item_write + (enc.length + data.length) * s.per_byte_write)) ∧
    s.io_gas_per_write key .Deletion = some 0 := by
  refine ⟨fun h3 => ?_, fun h3 enc henc => ?_, rfl⟩
  · have hn : key.size + data.length - s.free_write_bytes_quota =
        Int.toNat ((key.size : Int) + data.length - s.free_write_bytes_quota) := by
      omega
    constructor <;>
      simp [StoragePricingV2.io_gas_per_write, StoragePricingV2.write_op_size,
        if_pos h3, ← hn, Nat.mul_one]
  · have h3' : ¬ 3 ≤ s.feature_version := by omega
    constructor <;>
      simp [StoragePricingV2.io_gas_per_write, StoragePricingV2.write_op_size,
        if_neg h3', henc, Nat.mul_one]

/-- Witness for C1 at the spec's worked example: feature version 5, quota
1024, key abstract size 20, payload 2000 bytes — cost 50 + 996·3 = 3038. -/
theorem quota_tiered_write_cost_witness :
    sV2ex.io_gas_per_write ⟨20, none⟩ (.Creation (List.replicate 2000 0)) =
      some 3038 := by
  have h :=
    (quota_tiered_write_cost sV2ex ⟨20, none⟩ (List.replicate 2000 0)).1
      (by decide)
  rw [h.1]
  norm_num [sV2ex]
  decide

/-- C5: for the Legacy variant, a write costs
`per_op + key_rate * encoded_key_length`, plus
`new_item_flat + value_rate * payload_length` for a Creation, plus
`value_rate * payload_length` for a Modification, and nothing more for a
Deletion; in particular, with per_op 100, per_new_item 50, per_byte_key 1,
per_byte_val 2, a key encoding to 10 bytes and a Creation with a 5-byte
payload, the cost is exactly 170. -/
theorem legacy_write_cost (p : StoragePricingV1) (key : StateKey)
    (enc data : Bytes) (henc : key.encode = some enc) :
    (p.io_gas_per_write key (.Creation data) =
      some (p.write_data_per_op + p.write_data_per_byte_in_key * enc.length +
        (p.write_data_per_new_item + p.write_data_per_byte_in_val * data.length))) ∧
    (p.io_gas_per_write key (.Modification data) =
      some (p.write_data_per_op + p.write_data_per_byte_in_key * enc.length +
        p.write_data_per_byte_in_val * data.length)) ∧
    (p.io_gas_per_write key .Deletion =
      some (p.write_data_per_op + p.write_data_per_byte_in_key * enc.length)) ∧
    StoragePricingV1.io_gas_per_write ⟨100, 50, 1, 2, 0, 0, 0⟩
      ⟨7, some (List.replicate 10 0)⟩ (.Creation (List.replicate 5 0)) =
      some 170 := by
  refine ⟨?_, ?_, ?_, by decide⟩ <;>
    · by_cases h : 0 < p.write_data_per_byte_in_key
      · simp [StoragePricingV1.io_gas_per_write, h, henc, Nat.mul_one]
      · have h0 : p.write_data_per_byte_in_key = 0 := by omega
        simp [StoragePricingV1.io_gas_per_write, h, h0, Nat.mul_one]

/-- Witness for C5: the spec's worked Legacy example evaluates to 170 via
the general formula. -/
theorem legacy_write_cost_witness :
    StoragePricingV1.io_gas_per_write ⟨100, 50, 1, 2, 0, 0, 0⟩
      ⟨7, some (List.replicate 10 0)⟩ (.Creation (List.replicate 5 0)) =
      some 170 := by
  have h :=
    legacy_write_cost ⟨100, 50, 1, 2, 0, 0, 0⟩ ⟨7, some (List.replicate 10 0)⟩
      (List.replicate 10 0) (List.replicate 5 0) rfl
  rw [h.1]
  decide

/-- C7: read cost — Legacy charges `base + bytes * per_byte` on a hit and
`base + failure_penalty` on a miss; Quota-tiered charges
`per_item + bytes * per_byte_read` on a hit and `per_item` alone (no
failure penalty) on a miss. -/
theorem read_cost_formulas (p : StoragePricingV1) (s : StoragePricingV2)
    (bytes : Nat) :
    (StoragePricing.V1 p).calculate_read_gas (some bytes) =
      p.load_data_base + bytes * p.load_data_per_byte ∧
    (StoragePricing.V1 p).calculate_read_gas none =
      p.load_data_base + p.load_data_failure ∧
    (StoragePricing.V2 s).calculate_read_gas (some bytes) =
      s.per_item_read + bytes * s.per_byte_read ∧
    (StoragePricing.V2 s).calculate_read_gas none = s.per_item_read := by
  refine ⟨?_, rfl, ?_, ?_⟩ <;>
    simp [StoragePricing.calculate_read_gas, StoragePricingV1.calculate_read_gas,
      StoragePricingV2.calculate_read_gas, Nat.mul_comm, Nat.mul_one]

/-- C8: the Quota-tiered constructor resolves `free_write_bytes_quota` to
the raw-parameter value for feature version ≥ 5, the constant 1024 for
3 ≤ version < 5, and 0 for version < 3. -/
theorem free_quota_resolution (v : Nat) (sched : StorageGasSchedule)
    (gp : AptosGasParameters) (hv : 0 < v) :
    (StoragePricingV2.new v sched gp).map (fun s => s.free_write_bytes_quota) =
      some (if 5 ≤ v then gp.txn.free_write_bytes_quota
        else if 3 ≤ v then 1024 else 0) := by
  have hne : ¬ v = 0 := by omega
  simp [StoragePricingV2.new, hne]

/-- Witness for C8 at feature version 4: the quota is the constant 1024. -/
theorem free_quota_resolution_witness :
    (StoragePricingV2.new 4 schedEx gpZero).map
      (fun s => s.free_write_bytes_quota) = some 1024 := by
  have h := free_quota_resolution 4 schedEx gpZero (by decide)
  simpa using h

/-- C10: in the Legacy variant, when `write_data_per_byte_in_key = 0` the
cost of every write is computed without consulting the key encoding: the
fatal unencodable-key fault is unreachable (the result is always present)
and the result does not depend on the key at all. -/
theorem legacy_key_rate_zero (p : StoragePricingV1) (key key' : StateKey)
    (op : WriteOp) (h : p.write_data_per_byte_in_key = 0) :
    (p.io_gas_per_write key op).isSome = true ∧
    p.io_gas_per_write key op = p.io_gas_per_write key' op := by
  simp [StoragePricingV1.io_gas_per_write, h]

/-- Witness for C10: with a zero key rate, pricing a write against a key
whose encoding fails still succeeds, and agrees with pricing against an
encodable key. -/
theorem legacy_key_rate_zero_witness :
    ((pV1zero.io_gas_per_write ⟨3, none⟩ (.Creation [1, 2])).isSome = true) ∧
    pV1zero.io_gas_per_write ⟨3, none⟩ (.Creation [1, 2]) =
      pV1zero.io_gas_per_write ⟨9, some []⟩ (.Creation [1, 2]) :=
  legacy_key_rate_zero pV1zero ⟨3, none⟩ ⟨9, some []⟩ (.Creation [1, 2]) rfl

/-- A raw parameter bag with every field distinct and nonzero. -/
def gpOne : AptosGasParameters := ⟨⟨1, 2, 3, 4, 5, 6, 7, 8, 9, 10, 11, 12⟩⟩

/-- C3: the limiter caps are a pure function of the feature version: for
3 ≤ version < 5 they are fixed at 1 MiB per write op, unlimited total
write bytes, 1 MiB per event, 10 MiB total event bytes; for version < 3
all four caps equal `u64::MAX`, and the constructed limiter is identical
for any two raw parameter bags. -/
theorem limiter_caps_by_version (v : Nat) (gp gp1 gp2 : AptosGasParameters) :
    (3 ≤ v → v < 5 →
      (ChangeSetConfigs.new v gp).max_bytes_per_write_op = 2 ^ 20 ∧
      (ChangeSetConfigs.new v gp).max_bytes_all_write_ops_per_transaction =
        u64_MAX ∧
      (ChangeSetConfigs.new v gp).max_bytes_per_event = 2 ^ 20 ∧
      (ChangeSetConfigs.new v gp).max_bytes_all_events_per_transaction =
        10 * 2 ^ 20) ∧
    (v < 3 →
      (ChangeSetConfigs.new v gp).max_bytes_per_write_op = u64_MAX ∧
      (ChangeSetConfigs.new v gp).max_bytes_all_write_ops_per_transaction =
        u64_MAX ∧
      (ChangeSetConfigs.new v gp).max_bytes_per_event = u64_MAX ∧
      (ChangeSetConfigs.new v gp).max_bytes_all_events_per_transaction =
        u64_MAX ∧
      ChangeSetConfigs.new v gp1 = ChangeSetConfigs.new v gp2) := by
  constructor
  · intro h3 h5
    have hn5 : ¬ 5 ≤ v := by omega
    simp [ChangeSetConfigs.new, hn5, if_pos h3,
      ChangeSetConfigs.for_feature_version_3, ChangeSetConfigs.new_impl]
  · intro h3
    have hn5 : ¬ 5 ≤ v := by omega
    have hn3 : ¬ 3 ≤ v := by omega
    simp [ChangeSetConfigs.new, hn5, hn3,
      ChangeSetConfigs.unlimited_at_gas_feature_version,
      ChangeSetConfigs.new_impl]

/-- Witness for C3: version 4 gets the fixed 1 MiB per-write-op cap, and
at version 2 two different parameter bags give the same limiter. -/
theorem limiter_caps_by_version_witness :
    (ChangeSetConfigs.new 4 gpZero).max_bytes_per_write_op = 2 ^ 20 ∧
    ChangeSetConfigs.new 2 gpZero = ChangeSetConfigs.new 2 gpOne :=
  ⟨((limiter_caps_by_version 4 gpZero gpZero gpZero).1 (by decide)
      (by decide)).1,
   ((limiter_caps_by_version 2 gpZero gpZero gpOne).2 (by decide)).2.2.2.2⟩

/-- C9 counterexample: the limiter built at feature version 4 does not
record 4 — `ChangeSetConfigs::new(4, params)` goes through
`for_feature_version_3`, which hardcodes the version field to 3. -/
theorem limiter_version_recorded_cex :
    ¬ (ChangeSetConfigs.new 4 gpZero).gas_feature_version = 4 := by
  decide

/-- C9 (amended): the limiter built by `ChangeSetConfigs::new(v, params)`
records `v` as its gas feature version whenever `v < 3` or `v ≥ 5`, but
for 3 ≤ v < 5 it records the constant 3 — in particular, at v = 4 the
recorded version is 3, not 4. -/
theorem limiter_version_recorded (v : Nat) (gp : AptosGasParameters) :
    (¬ (3 ≤ v ∧ v < 5) →
      (ChangeSetConfigs.new v gp).gas_feature_version = v) ∧
    (3 ≤ v → v < 5 → (ChangeSetConfigs.new v gp).gas_feature_version = 3) := by
  constructor
  · intro h
    by_cases h5 : 5 ≤ v
    · simp [ChangeSetConfigs.new, h5, ChangeSetConfigs.from_gas_params,
        ChangeSetConfigs.new_impl]
    · have h3 : ¬ 3 ≤ v := by omega
      simp [ChangeSetConfigs.new, h5, h3,
        ChangeSetConfigs.unlimited_at_gas_feature_version,
        ChangeSetConfigs.new_impl]
  · intro h3 h5
    have hn5 : ¬ 5 ≤ v := by omega
    simp [ChangeSetConfigs.new, hn5, if_pos h3,
      ChangeSetConfigs.for_feature_version_3, ChangeSetConfigs.new_impl]

/-- Witness for C9 (amended): version 5 is recorded as 5, version 4 is
recorded as 3. -/
theorem limiter_version_recorded_witness :
    (ChangeSetConfigs.new 5 gpZero).gas_feature_version = 5 ∧
    (ChangeSetConfigs.new 4 gpZero).gas_feature_version = 3 :=
  ⟨(limiter_version_recorded 5 gpZero).1 (by omega),
   (limiter_version_recorded 4 gpZero).2 (by decide) (by decide)⟩

/-- The resolver output at feature version 1, parameters `gpZero`,
schedule `schedEx`: Quota-tiered pricing and an unlimited limiter. -/
def rV2ex : StorageGasParameters :=
  { pricing := .V2 ⟨1, 0, 0, 50, 0, 0, 3, 0⟩
    change_set_configs := ChangeSetConfigs.unlimited_at_gas_feature_version 1 }

/-- C4: the parameter resolver returns `none` (metering disabled) iff the
feature version is 0 or the raw parameter bag is absent; otherwise it
yields the Quota-tiered variant exactly when an on-chain schedule is
supplied and the Legacy variant exactly when it is not, independent of the
feature-version value. -/
theorem resolver_selection (v : Nat) (gp? : Option AptosGasParameters)
    (sched? : Option StorageGasSchedule) :
    (StorageGasParameters.new v gp? sched? = none ↔ v = 0 ∨ gp? = none) ∧
    (∀ r, StorageGasParameters.new v gp? sched? = some r →
      ((∃ s2, r.pricing = .V2 s2) ↔ sched? ≠ none) ∧
      ((∃ p1, r.pricing = .V1 p1) ↔ sched? = none)) := by
  by_cases hv : v = 0
  · subst hv
    simp [StorageGasParameters.new]
  · cases gp? with
    | none => simp [StorageGasParameters.new, hv]
    | some gp =>
      cases sched? with
      | none =>
        constructor
        · simp [StorageGasParameters.new, hv]
        · intro r hr
          simp [StorageGasParameters.new, hv] at hr
          simp [← hr]
      | some sched =>
        constructor
        · simp [StorageGasParameters.new, hv, StoragePricingV2.new]
        · intro r hr
          simp [StorageGasParameters.new, hv, StoragePricingV2.new] at hr
          simp [← hr]

/-- Witness for C4: at feature version 0 the resolver is disabled; at
feature version 1 with a schedule present the resolver yields the
Quota-tiered variant. -/
theorem resolver_selection_witness :
    StorageGasParameters.new 0 (some gpZero) none = none ∧
    ((∃ s2, rV2ex.pricing = StoragePricing.V2 s2) ↔
      (some schedEx ≠ none)) :=
  ⟨(resolver_selection 0 (some gpZero) none).1.mpr (Or.inl rfl),
   ((resolver_selection 1 (some gpZero) (some schedEx)).2 rV2ex
      (by decide)).1⟩

/-- The byte contribution of one write entry to the limit checks:
`payload_length + key_size` when a payload is present, 0 otherwise. -/
def writeEntryBytes : StateKey × WriteOp → Nat
  | (key, op) =>
    match op.bytes with
    | some bytes => bytes.length + key.size
    | none => 0

/-- Total bytes a write set contributes to the per-transaction check. -/
def writeSetBytes (ws : List (StateKey × WriteOp)) : Nat :=
  (ws.map writeEntryBytes).sum

/-- Total bytes an event list contributes to the per-transaction check. -/
def eventBytes (events : List ContractEvent) : Nat :=
  (events.map (fun ev => ev.event_data.length)).sum

/-- A write set with the payload-less (Deletion) entries removed. -/
def dropDeletionOps (ws : List (StateKey × WriteOp)) :
    List (StateKey × WriteOp) :=
  ws.filter (fun e => e.2.bytes.isSome)

/-- When every entry respects the per-write-op cap and the running total
never exceeds the per-transaction cap, the write loop succeeds and
returns the accumulated size. -/
theorem checkWritesLoop_ok (cfg : ChangeSetConfigs)
    (ws : List (StateKey × WriteOp)) (acc : Nat)
    (hop : ∀ e ∈ ws, ∀ data, e.2.bytes = some data →
      data.length + e.1.size ≤ cfg.max_bytes_per_write_op)
    (htot : acc + writeSetBytes ws ≤
      cfg.max_bytes_all_write_ops_per_transaction) :
    checkWritesLoop cfg ws acc = .ok (acc + writeSetBytes ws) := by
  induction ws generalizing acc with
  | nil => simp [checkWritesLoop, writeSetBytes]
  | cons hd tl ih =>
    obtain ⟨key, op⟩ := hd
    have hws : writeSetBytes ((key, op) :: tl) =
        writeEntryBytes (key, op) + writeSetBytes tl := by
      simp [writeSetBytes]
    have hop' : ∀ e ∈ tl, ∀ data, e.2.bytes = some data →
        data.length + e.1.size ≤ cfg.max_bytes_per_write_op :=
      fun e he => hop e (List.mem_cons_of_mem _ he)
    cases hb : op.bytes with
    | some bytes =>
      have hent : writeEntryBytes (key, op) = bytes.length + key.size := by
        simp [writeEntryBytes, hb]
      have h1 : bytes.length + key.size ≤ cfg.max_bytes_per_write_op :=
        hop (key, op) (List.mem_cons_self _ _) bytes hb
      have hn1 : ¬ cfg.max_bytes_per_write_op < bytes.length + key.size := by
        omega
      have hn2 : ¬ cfg.max_bytes_all_write_ops_per_transaction <
          acc + (bytes.length + key.size) := by
        rw [hws, hent] at htot
        omega
      simp only [checkWritesLoop, hb, if_neg hn1, if_neg hn2]
      rw [ih _ hop' (by rw [hws, hent] at htot; omega)]
      rw [hws, hent]
      congr 1
      omega
    | none =>
      have hent : writeEntryBytes (key, op) = 0 := by
        simp [writeEntryBytes, hb]
      have hn2 : ¬ cfg.max_bytes_all_write_ops_per_transaction < acc := by
        omega
      simp only [checkWritesLoop, hb, if_neg hn2]
      rw [ih _ hop' (by rw [hws, hent] at htot; omega)]
      rw [hws, hent]
      simp

/-- When every event respects the per-event cap and the running total
never exceeds the per-transaction event cap, the event loop succeeds and
returns the accumulated size. -/
theorem checkEventsLoop_ok (cfg : ChangeSetConfigs)
    (events : List ContractEvent) (acc : Nat)
    (hev : ∀ ev ∈ events, ev.event_data.length ≤ cfg.max_bytes_per_event)
    (htot : acc + eventBytes events ≤
      cfg.max_bytes_all_events_per_transaction) :
    checkEventsLoop cfg events acc = .ok (acc + eventBytes events) := by
  induction events generalizing acc with
  | nil => simp [checkEventsLoop, eventBytes]
  | cons ev tl ih =>
    have hws : eventBytes (ev :: tl) = ev.event_data.length + eventBytes tl := by
      simp [eventBytes]
    have h1 : ev.event_data.length ≤ cfg.max_bytes_per_event :=
      hev ev (List.mem_cons_self _ _)
    have hn1 : ¬ cfg.max_bytes_per_event < ev.event_data.length := by omega
    have hn2 : ¬ cfg.max_bytes_all_events_per_transaction <
        acc + ev.event_data.length := by
      rw [hws] at htot
      omega
    simp only [checkEventsLoop, if_neg hn1, if_neg hn2]
    rw [ih _ (fun e he => hev e (List.mem_cons_of_mem _ he))
      (by rw [hws] at htot; omega)]
    rw [hws]
    congr 1
    omega

/-- Removing the payload-less entries does not change the outcome of the
write loop, provided the running total has not yet exceeded the cap (as
is the case at entry, where it is 0). -/
theorem checkWritesLoop_dropDeletion (cfg : ChangeSetConfigs)
    (ws : List (StateKey × WriteOp)) (acc : Nat)
    (hacc : acc ≤ cfg.max_bytes_all_write_ops_per_transaction) :
    checkWritesLoop cfg (dropDeletionOps ws) acc =
      checkWritesLoop cfg ws acc := by
  induction ws generalizing acc with
  | nil => rfl
  | cons hd tl ih =>
    obtain ⟨key, op⟩ := hd
    cases hb : op.bytes with
    | some bytes =>
      have hdrop : dropDeletionOps ((key, op) :: tl) =
          (key, op) :: dropDeletionOps tl := by
        simp [dropDeletionOps, hb]
      by_cases h1 : cfg.max_bytes_per_write_op < bytes.length + key.size
      · simp only [hdrop, checkWritesLoop, hb, if_pos h1]
      · by_cases h2 : cfg.max_bytes_all_write_ops_per_transaction <
            acc + (bytes.length + key.size)
        · simp only [hdrop, checkWritesLoop, hb, if_neg h1, if_pos h2]
        · simp only [hdrop, checkWritesLoop, hb, if_neg h1, if_neg h2]
          exact ih _ (by omega)
    | none =>
      have hdrop : dropDeletionOps ((key, op) :: tl) = dropDeletionOps tl := by
        simp [dropDeletionOps, hb]
      have h2 : ¬ cfg.max_bytes_all_write_ops_per_transaction < acc := by
        omega
      rw [hdrop]
      conv_rhs => rw [checkWritesLoop]
      rw [hb]
      rw [if_neg h2]
      exact ih _ hacc

/-- The write loop over an appended list runs the first part, and on its
success continues over the second part from the accumulated size. -/
theorem checkWritesLoop_append (cfg : ChangeSetConfigs)
    (l1 l2 : List (StateKey × WriteOp)) (acc : Nat) :
    checkWritesLoop cfg (l1 ++ l2) acc =
      match checkWritesLoop cfg l1 acc with
      | .error e => .error e
      | .ok t => checkWritesLoop cfg l2 t := by
  induction l1 generalizing acc with
  | nil => simp [checkWritesLoop]
  | cons hd tl ih =>
    obtain ⟨key, op⟩ := hd
    cases hb : op.bytes with
    | some bytes =>
      by_cases h1 : cfg.max_bytes_per_write_op < bytes.length + key.size
      · simp only [List.cons_append, checkWritesLoop, hb, if_pos h1]
      · by_cases h2 : cfg.max_bytes_all_write_ops_per_transaction <
            acc + (bytes.length + key.size)
        · simp only [List.cons_append, checkWritesLoop, hb, if_neg h1,
            if_pos h2]
        · simp only [List.cons_append, checkWritesLoop, hb, if_neg h1,
            if_neg h2]
          exact ih _
    | none =>
      by_cases h2 : cfg.max_bytes_all_write_ops_per_transaction < acc
      · simp only [List.cons_append, checkWritesLoop, hb, if_pos h2]
      · simp only [List.cons_append, checkWritesLoop, hb, if_neg h2]
        exact ih _

/-- C2: `check_change_set` accepts whenever every individual write size
(`payload_length + key_size`), every individual event size, and both
running totals are at or below their caps — in particular when all of
them equal the caps exactly, since only strict excess is a violation; and
Deletion entries (writes without a payload) contribute zero bytes: the
outcome is unchanged when they are removed, so they can never trigger
either check, regardless of parameter values. -/
theorem check_change_set_at_caps (cfg : ChangeSetConfigs) (cs : ChangeSet) :
    ((∀ e ∈ cs.write_set, ∀ data, e.2.bytes = some data →
        data.length + e.1.size ≤ cfg.max_bytes_per_write_op) →
      writeSetBytes cs.write_set ≤
        cfg.max_bytes_all_write_ops_per_transaction →
      (∀ ev ∈ cs.events, ev.event_data.length ≤ cfg.max_bytes_per_event) →
      eventBytes cs.events ≤ cfg.max_bytes_all_events_per_transaction →
      cfg.check_change_set cs = .ok ()) ∧
    cfg.check_change_set cs =
      cfg.check_change_set ⟨dropDeletionOps cs.write_set, cs.events⟩ := by
  constructor
  · intro hop htot hev hetot
    have hw := checkWritesLoop_ok cfg cs.write_set 0 hop (by omega)
    have he := checkEventsLoop_ok cfg cs.events 0 hev (by omega)
    simp [ChangeSetConfigs.check_change_set, hw, he]
  · have h := checkWritesLoop_dropDeletion cfg cs.write_set 0 (by omega)
    simp [ChangeSetConfigs.check_change_set, h]

/-- A limiter whose caps are small and exactly matched by `csEq`. -/
def cfgEq : ChangeSetConfigs := ⟨6, 10, 20, 5, 10⟩

/-- A key of abstract size 4 whose canonical encoding fails (the limiter
never consults the encoding). -/
def keyEx : StateKey := ⟨4, none⟩

/-- A change set in which every write size, every event size, and both
running totals equal the caps of `cfgEq` exactly, with a Deletion entry
interleaved. -/
def csEq : ChangeSet :=
  ⟨[(keyEx, .Creation (List.replicate 6 0)), (keyEx, .Deletion),
    (keyEx, .Modification (List.replicate 6 0))],
   [⟨List.replicate 5 0⟩, ⟨List.replicate 5 0⟩]⟩

/-- Witness for C2: the equality-at-caps change set is accepted. -/
theorem check_change_set_at_caps_witness :
    cfgEq.check_change_set csEq = .ok () :=
  (check_change_set_at_caps cfgEq csEq).1 (by decide) (by decide) (by decide)
    (by decide)

/-- C6: the write entries are processed in order: the first entry with a
payload whose size strictly exceeds the per-write-op cap — or whose
addition pushes the running write total strictly over the per-transaction
cap — fails the whole check with the single generic limit-reached status,
regardless of what follows it and of the events; and whenever the write
loop fails, the events are never consulted. -/
theorem check_change_set_first_offender (cfg : ChangeSetConfigs) :
    (∀ pre post events key op data t,
      checkWritesLoop cfg pre 0 = .ok t →
      WriteOp.bytes op = some data →
      cfg.max_bytes_per_write_op < data.length + key.size →
      cfg.check_change_set ⟨pre ++ (key, op) :: post, events⟩ =
        .error limitReached) ∧
    (∀ pre post events key op data t,
      checkWritesLoop cfg pre 0 = .ok t →
      WriteOp.bytes op = some data →
      data.length + key.size ≤ cfg.max_bytes_per_write_op →
      cfg.max_bytes_all_write_ops_per_transaction <
        t + (data.length + key.size) →
      cfg.check_change_set ⟨pre ++ (key, op) :: post, events⟩ =
        .error limitReached) ∧
    (∀ ws events e, checkWritesLoop cfg ws 0 = .error e →
      cfg.check_change_set ⟨ws, events⟩ = .error e) := by
  refine ⟨fun pre post events key op data t hpre hb hlt => ?_,
    fun pre post events key op data t hpre hb hle hlt => ?_,
    fun ws events e herr => ?_⟩
  · have happ := checkWritesLoop_append cfg pre ((key, op) :: post) 0
    rw [hpre] at happ
    simp only [checkWritesLoop, hb, if_pos hlt] at happ
    simp [ChangeSetConfigs.check_change_set, happ]
  · have happ := checkWritesLoop_append cfg pre ((key, op) :: post) 0
    rw [hpre] at happ
    have h1 : ¬ cfg.max_bytes_per_write_op < data.length + key.size := by
      omega
    simp only [checkWritesLoop, hb, if_neg h1, if_pos hlt] at happ
    simp [ChangeSetConfigs.check_change_set, happ]
  · simp [ChangeSetConfigs.check_change_set, herr]

/-- Witness for C6: a change set whose first write is oversized is
rejected at that entry, although every later entry and the events are
within budget. -/
theorem check_change_set_first_offender_witness :
    cfgEq.check_change_set
      ⟨[(keyEx, .Creation (List.replicate 7 0)), (keyEx, .Deletion)],
       [⟨List.replicate 2 0⟩]⟩ = .error limitReached :=
  (check_change_set_first_offender cfgEq).1 [] [(keyEx, .Deletion)]
    [⟨List.replicate 2 0⟩] keyEx (.Creation (List.replicate 7 0))
    (List.replicate 7 0) 0 rfl rfl (by decide)

end AptosStorageGas
